import Mathlib

/-!
Verification of the admission/protection/lifecycle core of the
Total_Downloader backend (src/backend/src/main.rs): the rate limiter,
the two-strategy anti-bot engine, the defensive artifact resolution of the
job-slot manager, and the bounded history ledger, together with the
`start_download` request orchestration.

The Rust code is shallowly embedded: machine integers become `Nat`/`Int`
(with explicit wrap-around where it matters), timestamps (`DateTime<Utc>`)
become `Int` seconds, `HashMap`s become functions into `Option`/`List`,
fallible operations become `Except`/`Option`, and the genuinely external
effects (the yt-dlp subprocess, the Turnstile network call, disk I/O,
random UUIDs, the filesystem) become explicit oracle inputs so that the
control flow around them can be analysed.
-/

/-! ## Constants (src/backend/src/main.rs lines 53-66) -/

def DOWNLOAD_LIMIT_PER_DAY : Nat := 10

def DOWNLOAD_WINDOW_HOURS : Int := 24

/-- Window length in seconds: `chrono::Duration::hours(24).num_seconds()`. -/
def downloadWindowSecs : Int := DOWNLOAD_WINDOW_HOURS * 3600

/-- Source constant `ANTIBOT_DIFFICULTY_HEX_PREFIX` (renamed here): the
number of leading zero hex digits required from the PoW digest. -/
def ANTIBOT_DIFFICULTY_HEX_ZEROS : Nat := 3

def ANTIBOT_CHALLENGE_TTL_SECONDS : Int := 5 * 60

def ANTIBOT_MIN_ELAPSED_MS : Nat := 900

def HISTORY_PER_IP_LIMIT : Nat := 10

def HISTORY_MAX_ENTRIES : Nat := 2000

/-! ## SHA-256

Modelled from the spec: the `sha2` crate used by `is_pow_solution_valid`
is an external dependency (not part of this repository's sources); it is
the standard FIPS 180-4 SHA-256 function, embedded here over byte lists
(`List Nat`, each element < 256) with 32-bit words as `Nat` reduced
mod 2^32. -/

def w32 (n : Nat) : Nat := n % 4294967296

def rotr32 (x n : Nat) : Nat := w32 ((x >>> n) ||| (x <<< (32 - n)))

def shaCh (a b c : Nat) : Nat := w32 ((a &&& b) ^^^ ((a ^^^ 4294967295) &&& c))

def shaMaj (a b c : Nat) : Nat := w32 ((a &&& b) ^^^ ((a &&& c) ^^^ (b &&& c)))

def bigSigma0 (x : Nat) : Nat := (rotr32 x 2) ^^^ (rotr32 x 13) ^^^ (rotr32 x 22)

def bigSigma1 (x : Nat) : Nat := (rotr32 x 6) ^^^ (rotr32 x 11) ^^^ (rotr32 x 25)

def smallSigma0 (x : Nat) : Nat := (rotr32 x 7) ^^^ (rotr32 x 18) ^^^ (x >>> 3)

def smallSigma1 (x : Nat) : Nat := (rotr32 x 17) ^^^ (rotr32 x 19) ^^^ (x >>> 10)

def shaK : List Nat :=
  [1116352408, 1899447441, 3049323471, 3921009573, 961987163, 1508970993,
   2453635748, 2870763221, 3624381080, 310598401, 607225278, 1426881987,
   1925078388, 2162078206, 2614888103, 3248222580, 3835390401, 4022224774,
   264347078, 604807628, 770255983, 1249150122, 1555081692, 1996064986,
   2554220882, 2821834349, 2952996808, 3210313671, 3336571891, 3584528711,
   113926993, 338241895, 666307205, 773529912, 1294757372, 1396182291,
   1695183700, 1986661051, 2177026350, 2456956037, 2730485921, 2820302411,
   3259730800, 3345764771, 3516065817, 3600352804, 4094571909, 275423344,
   430227734, 506948616, 659060556, 883997877, 958139571, 1322822218,
   1537002063, 1747873779, 1955562222, 2024104815, 2227730452, 2361852424,
   2428436474, 2756734187, 3204031479, 3329325298]

def shaH0 : List Nat :=
  [1779033703, 3144134277, 1013904242, 2773480762, 1359893119, 2600822924,
   528734635, 1541459225]

/-- Split a byte sequence into big-endian 32-bit words (4 bytes each). -/
def bytesToWords : List Nat → List Nat
  | b0 :: b1 :: b2 :: b3 :: rest =>
      (((b0 * 256 + b1) * 256 + b2) * 256 + b3) :: bytesToWords rest
  | _ => []

/-- Extend a 16-word block to the 64-word message schedule. -/
def extendScheduleStep (ws : List Nat) : Nat :=
  let n := ws.length
  w32 (ws.getD (n - 16) 0 + smallSigma0 (ws.getD (n - 15) 0) +
       ws.getD (n - 7) 0 + smallSigma1 (ws.getD (n - 2) 0))

def buildSchedule (block : List Nat) : List Nat :=
  (List.range 48).foldl (fun ws _ => ws ++ [extendScheduleStep ws]) block

/-- One round of the SHA-256 compression function on the 8-word state. -/
def shaRound (st : List Nat) (kw : Nat × Nat) : List Nat :=
  match st with
  | [a, b, c, d, e, f, g, h] =>
    let t1 := w32 (h + bigSigma1 e + shaCh e f g + kw.1 + kw.2)
    let t2 := w32 (bigSigma0 a + shaMaj a b c)
    [w32 (t1 + t2), a, b, c, w32 (d + t1), e, f, g]
  | other => other

def compressBlock (st : List Nat) (block : List Nat) : List Nat :=
  let ws := buildSchedule (bytesToWords block)
  let out := (shaK.zip ws).foldl shaRound st
  (st.zip out).map (fun p => w32 (p.1 + p.2))

/-- SHA-256 padding: append 0x80, zeros to 56 mod 64, then the 64-bit
big-endian bit length. -/
def shaPad (msg : List Nat) : List Nat :=
  let len := msg.length
  let zeroCount := (119 - len % 64) % 64
  let bitLen := len * 8
  msg ++ [128] ++ List.replicate zeroCount 0 ++
    [bitLen / 72057594037927936 % 256, bitLen / 281474976710656 % 256,
     bitLen / 1099511627776 % 256, bitLen / 4294967296 % 256,
     bitLen / 16777216 % 256, bitLen / 65536 % 256,
     bitLen / 256 % 256, bitLen % 256]

def toBlocks : List Nat → List (List Nat)
  | [] => []
  | x :: xs =>
    (x :: xs).take 64 :: toBlocks ((x :: xs).drop 64)
termination_by l => l.length
decreasing_by simp [List.length_drop]; omega

/-- SHA-256 digest of a byte sequence as eight 32-bit words. -/
def sha256Words (msg : List Nat) : List Nat :=
  (toBlocks (shaPad msg)).foldl compressBlock shaH0

def hexDigitChars : List Char := "0123456789abcdef".data

def hexDigit (n : Nat) : Char := hexDigitChars.getD (n % 16) '0'

/-- Lowercase hex rendering of one 32-bit word (8 digits, like `{:x}` with
zero padding as produced for a full digest). -/
def wordToHex (x : Nat) : List Char :=
  [hexDigit (x / 268435456), hexDigit (x / 16777216), hexDigit (x / 1048576),
   hexDigit (x / 65536), hexDigit (x / 4096), hexDigit (x / 256),
   hexDigit (x / 16), hexDigit x]

/-- Lowercase hex digest string, as `format!("{digest:x}")` renders it. -/
def sha256Hex (msg : List Nat) : String :=
  String.mk ((sha256Words msg).map wordToHex).flatten

/-- UTF-8 encoding of one character (Rust `str::as_bytes` view). -/
def utf8Bytes (c : Char) : List Nat :=
  let n := c.toNat
  if n < 128 then [n]
  else if n < 2048 then [192 + n / 64, 128 + n % 64]
  else if n < 65536 then [224 + n / 4096, 128 + (n / 64) % 64, 128 + n % 64]
  else [240 + n / 262144, 128 + (n / 4096) % 64, 128 + (n / 64) % 64, 128 + n % 64]

def strBytes (s : String) : List Nat := (s.data.map utf8Bytes).flatten

/-! ## The local proof-of-work validator (main.rs lines 1605-1616) -/

/-- The incremental `Sha256::new()` hasher: `update` concatenates input
bytes; `finalize` hashes the accumulated buffer. -/
structure Sha256Hasher where
  buf : List Nat

def Sha256Hasher.new : Sha256Hasher := ⟨[]⟩

def Sha256Hasher.update (h : Sha256Hasher) (bytes : List Nat) : Sha256Hasher :=
  ⟨h.buf ++ bytes⟩

def Sha256Hasher.finalizeHex (h : Sha256Hasher) : String := sha256Hex h.buf

def is_pow_solution_valid (challenge_id nonce : String) (solution : Nat) : Bool :=
  let hasher := ((((Sha256Hasher.new.update
      (strBytes challenge_id)).update
      (strBytes ":")).update
      (strBytes nonce)).update
      (strBytes ":")).update
      (strBytes (Nat.repr solution))
  let hex := hasher.finalizeHex
  let zeros := String.mk (List.replicate ANTIBOT_DIFFICULTY_HEX_ZEROS '0')
  hex.startsWith zeros

/-- Spec-side acceptance rule, written from the spec's words: the lowercase
hex SHA-256 digest of `challenge_id ++ ":" ++ nonce ++ ":" ++ decimal
solution` starts with three zero hex digits. -/
def powSpecAccepts (challenge_id nonce : String) (solution : Nat) : Bool :=
  (sha256Hex (strBytes (challenge_id ++ ":" ++ nonce ++ ":" ++ Nat.repr solution))).startsWith
    (String.mk ['0', '0', '0'])

/-! ## Data model (main.rs lines 68-151) -/

inductive DownloadMode where
  | video
  | audio
deriving DecidableEq

inductive DownloadStatus where
  | success
  | failed
deriving DecidableEq

/-- History entry (main.rs lines 82-96). The `id` field is a random UUID in
the source; it is supplied by an oracle here. `requester_ip` carries
`#[serde(skip_serializing)]` and is therefore absent from the served
representation (see `ServedHistoryEntry`). -/
structure HistoryEntry where
  id : String
  created_at : Int
  requester_ip : String
  url : String
  title : Option String
  thumbnail : Option String
  mode : DownloadMode
  format : String
  status : DownloadStatus
  saved_path : Option String
  error : Option String
deriving DecidableEq

structure DownloadRequest where
  url : String
  title : Option String
  thumbnail : Option String
  mode : DownloadMode
  format_id : Option String
  format_label : Option String
  has_audio : Option Bool
  antibot_challenge_id : Option String
  antibot_solution : Option Nat
  antibot_honey : Option String
  antibot_elapsed_ms : Option Nat
  turnstile_token : Option String
deriving DecidableEq

structure ApiError where
  status : Nat
  message : String
  code : Option String
  retry_after_seconds : Option Nat
deriving DecidableEq

def ApiError.bad_request (message : String) : ApiError :=
  ⟨400, message, none, none⟩

def ApiError.internal (message : String) : ApiError :=
  ⟨500, message, none, none⟩

def ApiError.daily_limit_exceeded (retry_after_seconds : Nat) : ApiError :=
  ⟨429, "Has superado el limite de 10 descargas por IP en 24 horas.",
   some "DAILY_LIMIT_EXCEEDED", some retry_after_seconds⟩

def ApiError.bot_check_failed (message : String) : ApiError :=
  ⟨403, message, some "BOT_CHECK_FAILED", none⟩

structure AntiBotChallenge where
  nonce : String
  created_at : Int
  ip : String
deriving DecidableEq

/-- In-memory challenge table (`HashMap<String, AntiBotChallenge>`),
modelled as a function into `Option`. -/
def ChallengeMap : Type := String → Option AntiBotChallenge

/-- Per-client rate-limit table (`HashMap<String, Vec<DateTime<Utc>>>`);
`entry(ip).or_default()` yields `[]` for unseen clients. -/
def RateLimitMap : Type := String → List Int

/-- Whitespace trimming (Rust `str::trim`), modelled over the character
list so that it evaluates by kernel reduction; `Char.isWhitespace` plays
the role of the Unicode `White_Space` test. -/
def strTrim (s : String) : String :=
  String.mk (((s.data.dropWhile Char.isWhitespace).reverse.dropWhile
    Char.isWhitespace).reverse)

/-- Rust `non_empty` (main.rs lines 1691-1698): `None` for blank strings,
otherwise the trimmed value. -/
def non_empty (value : String) : Option String :=
  if strTrim value = "" then none else some (strTrim value)

/-! ## RateLimiter: `register_download_attempt` (main.rs lines 876-909)

The body of the critical section, acting on one client's timestamp list.
`entries.sort()` is a stable ascending sort; `retain` keeps timestamps
strictly inside the trailing 24h window. -/

def prunedWindow (entries : List Int) (now : Int) : List Int :=
  (entries.insertionSort (· ≤ ·)).filter (fun t => decide (now - downloadWindowSecs < t))

/-- One `register_download_attempt` critical section on a single client's
entry list: returns the updated stored list and `some retry_after_seconds`
on rejection, `none` on admission. -/
def registerAttemptEntries (entries : List Int) (now : Int) : List Int × Option Nat :=
  let kept := prunedWindow entries now
  if DOWNLOAD_LIMIT_PER_DAY ≤ kept.length then
    let reset_at := match kept.head? with
      | some first => first + downloadWindowSecs
      | none => now + downloadWindowSecs
    (kept, some (max (reset_at - now) 1).toNat)
  else
    ((kept ++ [now]).insertionSort (· ≤ ·), none)

/-- The full map update performed under the rate-limit lock. -/
def stepAttempt (m : RateLimitMap) (ip : String) (now : Int) :
    RateLimitMap × Option Nat :=
  let r := registerAttemptEntries (m ip) now
  (fun k => if k = ip then r.1 else m k, r.2)

def emptyRateMap : RateLimitMap := fun _ => []

/-- A serialized trace of admission attempts (the shared lock serializes
concurrent `/download` requests): processes `(client, time)` events in
order and returns the final table together with the list of admitted
events. -/
def runAttempts (m : RateLimitMap) : List (String × Int) → RateLimitMap × List (String × Int)
  | [] => (m, [])
  | e :: rest =>
    let s := stepAttempt m e.1 e.2
    let r := runAttempts s.1 rest
    (r.1, (if s.2.isNone then [e] else []) ++ r.2)

/-- Admission timestamps of one client inside an admitted-event list. -/
def admTimes (admitted : List (String × Int)) (ip : String) : List Int :=
  (admitted.filter (fun e => e.1 == ip)).map Prod.snd

/-- Membership of a timestamp in the trailing window that ends at `w`. -/
def inWindow (w s : Int) : Bool := decide (w - downloadWindowSecs < s) && decide (s ≤ w)

/-! ## AntiBotEngine (main.rs lines 911-1053, 1489-1493) -/

def prune_antibot_challenges (challenges : ChallengeMap) (now : Int) : ChallengeMap :=
  fun id => (challenges id).filter
    (fun challenge => decide (now - challenge.created_at ≤ ANTIBOT_CHALLENGE_TTL_SECONDS))

def removeChallenge (challenges : ChallengeMap) (id : String) : ChallengeMap :=
  fun k => if k = id then none else challenges k

/-- The honeypot test `payload.antibot_honey.as_deref().map(str::trim)
.is_some_and(|v| !v.is_empty())`. -/
def honey_nonempty (payload : DownloadRequest) : Bool :=
  (payload.antibot_honey.map strTrim).any (fun v => !(v == ""))

def trimmedChallengeId (payload : DownloadRequest) : Option String :=
  payload.antibot_challenge_id.bind non_empty

/-- Local PoW validation (main.rs lines 999-1053): returns the updated
challenge table and the verdict. The table is mutated (pruned and the
challenge removed) exactly when the lookup block is reached. -/
def validate_antibot (challenges : ChallengeMap) (client_ip : String)
    (payload : DownloadRequest) (now : Int) :
    ChallengeMap × Except ApiError Unit :=
  if honey_nonempty payload then
    (challenges, .error (ApiError.bot_check_failed "Solicitud bloqueada por filtro anti-bot."))
  else if payload.antibot_elapsed_ms.getD 0 < ANTIBOT_MIN_ELAPSED_MS then
    (challenges, .error (ApiError.bot_check_failed
      "No se pudo validar el tiempo minimo anti-bot. Espera un momento y reintenta."))
  else
    match trimmedChallengeId payload with
    | none => (challenges, .error (ApiError.bot_check_failed "Falta challenge anti-bot."))
    | some challenge_id =>
      match payload.antibot_solution with
      | none => (challenges, .error (ApiError.bot_check_failed "Falta solucion anti-bot."))
      | some solution =>
        let pruned := prune_antibot_challenges challenges now
        let afterTake := removeChallenge pruned challenge_id
        match pruned challenge_id with
        | none =>
          (afterTake, .error (ApiError.bot_check_failed
            "Challenge anti-bot invalido o expirado. Actualiza y reintenta."))
        | some challenge =>
          if challenge.ip ≠ client_ip then
            (afterTake, .error (ApiError.bot_check_failed
              "Challenge anti-bot no coincide con el origen de la solicitud."))
          else if !is_pow_solution_valid challenge_id challenge.nonce solution then
            (afterTake, .error (ApiError.bot_check_failed
              "No se pudo validar la prueba anti-bot. Intenta nuevamente."))
          else
            (afterTake, .ok ())

/-- Outcome of the external Turnstile verification HTTP exchange
(main.rs lines 943-997); the network is an oracle. -/
inductive TurnstileWire where
  | sendErr
  | badStatus
  | badJson
  | verified (success : Bool)
deriving DecidableEq

def verify_turnstile_token (wire : TurnstileWire) : Except ApiError Unit :=
  match wire with
  | .sendErr => .error (ApiError.bot_check_failed "No se pudo validar anti-bot. Intenta nuevamente.")
  | .badStatus => .error (ApiError.bot_check_failed "No se pudo validar anti-bot. Intenta nuevamente.")
  | .badJson => .error (ApiError.bot_check_failed "No se pudo validar anti-bot. Intenta nuevamente.")
  | .verified false => .error (ApiError.bot_check_failed
      "Turnstile rechazo la verificacion anti-bot. Recarga la pagina y reintenta.")
  | .verified true => .ok ()

/-- Strategy dispatch (main.rs lines 911-941): honeypot first, then either
delegated verification (when a Turnstile secret is configured) or the
local PoW validator. -/
def verify_request_protection (turnstile_secret : Option String)
    (challenges : ChallengeMap) (client_ip : String) (payload : DownloadRequest)
    (now : Int) (wire : TurnstileWire) :
    ChallengeMap × Except ApiError Unit :=
  if honey_nonempty payload then
    (challenges, .error (ApiError.bot_check_failed "Solicitud bloqueada por filtro anti-bot."))
  else
    match turnstile_secret with
    | some _ =>
      match payload.turnstile_token.bind non_empty with
      | none => (challenges, .error (ApiError.bot_check_failed
          "Completa la verificacion anti-bot para continuar con la descarga."))
      | some _ => (challenges, verify_turnstile_token wire)
    | none => validate_antibot challenges client_ip payload now

/-! ## HistoryLedger (main.rs lines 362-395, 1055-1108) -/

/-- The per-client pass of `trim_history_limits`: `retain` with a stateful
per-IP counter keeps the first `HISTORY_PER_IP_LIMIT` entries of each
client (entries are stored newest-first, so the oldest beyond the cap are
dropped). -/
def trimPerClient (counters : String → Nat) : List HistoryEntry → List HistoryEntry
  | [] => []
  | e :: rest =>
    if HISTORY_PER_IP_LIMIT ≤ counters e.requester_ip then
      trimPerClient counters rest
    else
      e :: trimPerClient
        (fun k => if k = e.requester_ip then counters k + 1 else counters k) rest

def trim_history_limits (entries : List HistoryEntry) : List HistoryEntry :=
  if HISTORY_MAX_ENTRIES < (trimPerClient (fun _ => 0) entries).length then
    (trimPerClient (fun _ => 0) entries).take HISTORY_MAX_ENTRIES
  else
    trimPerClient (fun _ => 0) entries

/-- The in-memory mutation of `push_history`: insert at the front, then
trim. (Persistence of the snapshot is a separate oracle outcome.) -/
def pushHistoryList (entry : HistoryEntry) (history : List HistoryEntry) :
    List HistoryEntry :=
  trim_history_limits (entry :: history)

def persistHistoryError : ApiError :=
  ApiError.internal "No se pudo guardar el historial."

/-- Full `push_history`: mutate the ledger, then persist the snapshot; a
persistence failure (oracle `persistOk = false`) surfaces as an error while
the in-memory ledger keeps the entry. -/
def push_history (history : List HistoryEntry) (entry : HistoryEntry)
    (persistOk : Bool) : List HistoryEntry × Except ApiError Unit :=
  let snapshot := pushHistoryList entry history
  (snapshot, if persistOk then .ok () else .error persistHistoryError)

/-- Served representation of a history entry: `requester_ip` carries
`#[serde(skip_serializing)]`, so it does not appear. -/
structure ServedHistoryEntry where
  id : String
  created_at : Int
  url : String
  title : Option String
  thumbnail : Option String
  mode : DownloadMode
  format : String
  status : DownloadStatus
  saved_path : Option String
  error : Option String
deriving DecidableEq

def toServed (e : HistoryEntry) : ServedHistoryEntry :=
  ⟨e.id, e.created_at, e.url, e.title, e.thumbnail, e.mode, e.format,
   e.status, e.saved_path, e.error⟩

/-- The `GET /history` handler body (main.rs lines 362-378): filter the
ledger to the caller's entries, take the first `HISTORY_PER_IP_LIMIT`, and
serialize them (which strips `requester_ip`). -/
def get_history (client_ip : String) (history : List HistoryEntry) :
    List ServedHistoryEntry :=
  (((history.filter (fun entry => entry.requester_ip == client_ip)).take
      HISTORY_PER_IP_LIMIT).map toServed)

/-- Newest-first ordering of a ledger. -/
def newestFirst (l : List HistoryEntry) : Prop :=
  l.Pairwise (fun a b => b.created_at ≤ a.created_at)

/-! ## JobSlotManager artifact resolution (main.rs lines 1313-1397)

Paths are component lists plus an absoluteness flag; the filesystem
(metadata, canonicalization, directory listing) is an oracle structure,
since its behavior is outside the program. -/

structure RPath where
  abs : Bool
  comps : List String
deriving DecidableEq

/-- Split a character list at `'/'` boundaries. -/
def splitSlash : List Char → List (List Char)
  | [] => [[]]
  | c :: rest =>
    if c = '/' then [] :: splitSlash rest
    else
      match splitSlash rest with
      | [] => [[c]]
      | g :: gs => (c :: g) :: gs

/-- Rust `PathBuf::from` on a printed string, split into non-empty
components, with a leading slash marking an absolute path. -/
def parsePath (s : String) : RPath :=
  ⟨decide (s.data.headD ' ' = '/'),
   ((splitSlash s.data).map String.mk).filter (fun c => !(c == ""))⟩

/-- Rust `Path::join`: an absolute right-hand side replaces the base. -/
def RPath.joinS (p : RPath) (s : String) : RPath :=
  let q := parsePath s
  if q.abs then q else ⟨p.abs, p.comps ++ q.comps⟩

/-- Rust `Path::starts_with`, component-wise. -/
def RPath.startsWithP (p base : RPath) : Bool :=
  (p.abs == base.abs) && base.comps.isPrefixOf p.comps

/-- Result of `tokio::fs::metadata`: a regular file, some other kind of
entry (directory, symlink target, ...), `NotFound`, or another I/O error. -/
inductive MetaResult where
  | file
  | notFile
  | notFound
  | ioErr
deriving DecidableEq

structure FS where
  meta : RPath → MetaResult
  canonical : RPath → Option RPath
  listDir : RPath → Option (List RPath)

deriving instance DecidableEq for Except

/-- `resolve_download_candidate` (main.rs lines 1362-1397): `ok none` means
"not usable, keep looking"; an unexpected I/O failure aborts. -/
def resolve_download_candidate (fs : FS) (canonical_job_dir : RPath)
    (candidate_path : RPath) : Except ApiError (Option RPath) :=
  match fs.meta candidate_path with
  | .notFound => .ok none
  | .ioErr => .error (ApiError.internal "No se pudo leer archivo temporal descargado.")
  | .notFile => .ok none
  | .file =>
    match fs.canonical candidate_path with
    | none => .error (ApiError.internal "No se pudo resolver ruta temporal descargada.")
    | some canonical_candidate =>
      if canonical_candidate.startsWithP canonical_job_dir then
        .ok (some canonical_candidate)
      else
        .ok none

/-- The `read_dir` scan loop of `resolve_downloaded_file`. -/
def scanCandidates (fs : FS) (canonical_job_dir : RPath) :
    List RPath → Except ApiError (Option RPath)
  | [] => .ok none
  | p :: rest =>
    match resolve_download_candidate fs canonical_job_dir p with
    | .error e => .error e
    | .ok (some v) => .ok (some v)
    | .ok none => scanCandidates fs canonical_job_dir rest

def noDownloadedFileError : ApiError :=
  ApiError.internal "No se encontro el archivo descargado para transferir al dispositivo."

/-- The printed-path block of `resolve_downloaded_file` (main.rs lines
1330-1342): try the printed path as given, then joined to the workspace. -/
def tryPrintedPath (fs : FS) (canonical_job_dir job_dir : RPath) :
    Option String → Except ApiError (Option RPath)
  | none => .ok none
  | some path_value =>
    match resolve_download_candidate fs canonical_job_dir (parsePath path_value) with
    | .error e => .error e
    | .ok (some v) => .ok (some v)
    | .ok none =>
      resolve_download_candidate fs canonical_job_dir (job_dir.joinS path_value)

/-- The directory-scan block of `resolve_downloaded_file` (main.rs lines
1344-1359). -/
def scanWorkspace (fs : FS) (canonical_job_dir job_dir : RPath) :
    Except ApiError RPath :=
  match fs.listDir job_dir with
  | none => .error (ApiError.internal "No se pudo abrir la carpeta temporal.")
  | some entries =>
    match scanCandidates fs canonical_job_dir entries with
    | .error e => .error e
    | .ok (some v) => .ok v
    | .ok none => .error noDownloadedFileError

/-- `resolve_downloaded_file` (main.rs lines 1322-1360): prefer the printed
path (absolute, then joined to the workspace), fall back to scanning the
workspace directory. -/
def resolve_downloaded_file (fs : FS) (job_dir : RPath)
    (printed_path : Option String) : Except ApiError RPath :=
  match fs.canonical job_dir with
  | none => .error (ApiError.internal "No se pudo resolver carpeta temporal.")
  | some canonical_job_dir =>
    match tryPrintedPath fs canonical_job_dir job_dir printed_path with
    | .error e => .error e
    | .ok (some v) => .ok v
    | .ok none => scanWorkspace fs canonical_job_dir job_dir

/-! ## RequestGate: the `start_download` handler (main.rs lines 509-718)

Shared mutable state of the process, and the oracle outcomes of the
external effects a single request performs. -/

structure SState where
  history : List HistoryEntry
  challenges : ChallengeMap
  rateLimits : RateLimitMap
  turnstileSecret : Option String

structure PreparedDownload where
  filename : String
  content_length : Nat
deriving DecidableEq

/-- Oracle outcomes of one request's external effects, in program order:
the Turnstile exchange, persisting the rate-limit snapshot, creating the
job workspace, the whole extraction/resolution/streaming preparation block
(main.rs lines 609-647), persisting the history snapshot, and the random
UUID used for the history entry. -/
structure Effects where
  wire : TurnstileWire
  persistRateOk : Bool
  mkdirOk : Bool
  prep : Except ApiError PreparedDownload
  persistHistoryOk : Bool
  freshId : String

def normalize_optional_text (value : String) : Option String :=
  if strTrim value = "" then none else some (strTrim value)

/-- Full `register_download_attempt` including persistence: the snapshot is
persisted before the rejection verdict is delivered, so a persistence
failure takes precedence over the 429. -/
def register_download_attempt (m : RateLimitMap) (ip : String) (now : Int)
    (persistOk : Bool) : RateLimitMap × Except ApiError Unit :=
  let s := stepAttempt m ip now
  if !persistOk then
    (s.1, .error (ApiError.internal "No se pudo guardar limites de descarga."))
  else
    match s.2 with
    | some retry => (s.1, .error (ApiError.daily_limit_exceeded retry))
    | none => (s.1, .ok ())

/-- The `start_download` handler: returns the final shared state, the
number of history-record operations performed, and the response. The
`urlOk` parameter stands for `is_supported_download_url`, whose URL
parsing lives in the external `url` crate; the semaphore acquisition
cannot fail (the semaphore is never closed) and filesystem cleanup has no
bearing on the state modelled here. -/
def start_download (urlOk : String → Bool) (st : SState)
    (payload : DownloadRequest) (client_ip : String) (now : Int)
    (eff : Effects) : SState × Nat × Except ApiError PreparedDownload :=
  let url := strTrim payload.url
  if url = "" then
    (st, 0, .error (ApiError.bad_request "Ingresa una URL valida antes de descargar."))
  else if !urlOk url then
    (st, 0, .error (ApiError.bad_request
      "URL no soportada. Usa una URL de X, Facebook, TikTok, YouTube, Instagram o Bluesky."))
  else
    let prot := verify_request_protection st.turnstileSecret st.challenges
      client_ip payload now eff.wire
    let st1 : SState := { st with challenges := prot.1 }
    match prot.2 with
    | .error e => (st1, 0, .error e)
    | .ok () =>
      let rl := register_download_attempt st1.rateLimits client_ip now eff.persistRateOk
      let st2 : SState := { st1 with rateLimits := rl.1 }
      match rl.2 with
      | .error e => (st2, 0, .error e)
      | .ok () =>
        if !eff.mkdirOk then
          (st2, 0, .error (ApiError.internal "No se pudo preparar la descarga temporal."))
        else
          let selected_format :=
            (payload.format_label.or payload.format_id).getD "Mejor calidad automatica"
          let selected_title := payload.title.bind normalize_optional_text
          let selected_thumbnail := payload.thumbnail.bind normalize_optional_text
          match eff.prep with
          | .ok prepared =>
            let entry : HistoryEntry :=
              ⟨eff.freshId, now, client_ip, url, selected_title, selected_thumbnail,
               payload.mode, selected_format, .success, some prepared.filename, none⟩
            let ph := push_history st2.history entry eff.persistHistoryOk
            let st3 : SState := { st2 with history := ph.1 }
            match ph.2 with
            | .error e => (st3, 1, .error e)
            | .ok () => (st3, 1, .ok prepared)
          | .error e =>
            let entry : HistoryEntry :=
              ⟨eff.freshId, now, client_ip, url, selected_title, selected_thumbnail,
               payload.mode, selected_format, .failed, none, some e.message⟩
            let ph := push_history st2.history entry eff.persistHistoryOk
            let st3 : SState := { st2 with history := ph.1 }
            match ph.2 with
            | .error pe => (st3, 1, .error pe)
            | .ok () => (st3, 1, .error e)

/-- Decision predicate: the request passes URL validation, request
protection, rate-limit admission (including its persistence), and
workspace creation — exactly the requests whose extraction stage runs. -/
def reachesExtraction (urlOk : String → Bool) (st : SState)
    (payload : DownloadRequest) (client_ip : String) (now : Int)
    (eff : Effects) : Bool :=
  let url := strTrim payload.url
  !(url == "") && urlOk url &&
    (verify_request_protection st.turnstileSecret st.challenges client_ip
      payload now eff.wire).2.isOk &&
    eff.persistRateOk &&
    (stepAttempt st.rateLimits client_ip now).2.isNone &&
    eff.mkdirOk

/-! ## Theorems -/

lemma prunedWindow_sorted (entries : List Int) (now : Int) :
    (prunedWindow entries now).Sorted (· ≤ ·) :=
  (List.sorted_insertionSort _ entries).filter _

lemma prunedWindow_length_le (entries : List Int) (now : Int) :
    (prunedWindow entries now).length ≤ entries.length := by
  have h := (List.filter_sublist (l := entries.insertionSort (· ≤ ·))
    (p := fun t => decide (now - downloadWindowSecs < t))).length_le
  calc (prunedWindow entries now).length ≤ (entries.insertionSort (· ≤ ·)).length := h
    _ = entries.length := (List.perm_insertionSort _ entries).length_eq

/-- The claim of C3: after discarding timestamps older than 24h, a client
with at least `DOWNLOAD_LIMIT_PER_DAY` remaining timestamps is rejected
with `retry_after = max 1 (oldest + 24h - now)` and no new timestamp is
recorded; otherwise the current time is appended, the sequence stays
sorted, and the attempt is accepted. -/
theorem register_download_attempt_spec (entries : List Int) (now : Int) :
    (DOWNLOAD_LIMIT_PER_DAY ≤ (prunedWindow entries now).length →
      ∃ oldest, (prunedWindow entries now).head? = some oldest ∧
        (∀ t ∈ prunedWindow entries now, oldest ≤ t) ∧
        registerAttemptEntries entries now =
          (prunedWindow entries now,
           some (max 1 (oldest + downloadWindowSecs - now)).toNat)) ∧
    ((prunedWindow entries now).length < DOWNLOAD_LIMIT_PER_DAY →
      (registerAttemptEntries entries now).2 = none ∧
      List.Perm (registerAttemptEntries entries now).1
        (now :: prunedWindow entries now) ∧
      (registerAttemptEntries entries now).1.Sorted (· ≤ ·)) := by
  constructor
  · intro h
    have hne : prunedWindow entries now ≠ [] := by
      intro hnil
      rw [hnil] at h
      simp [DOWNLOAD_LIMIT_PER_DAY] at h
    obtain ⟨oldest, tail, heq⟩ := List.exists_cons_of_ne_nil hne
    refine ⟨oldest, by rw [heq]; rfl, ?_, ?_⟩
    · intro t ht
      have hs := prunedWindow_sorted entries now
      rw [heq] at hs ht
      rcases List.mem_cons.mp ht with h1 | h1
      · exact le_of_eq h1.symm
      · exact (List.pairwise_cons.mp hs).1 t h1
    · unfold registerAttemptEntries
      rw [if_pos h, heq]
      simp [max_comm]
  · intro h
    unfold registerAttemptEntries
    rw [if_neg (by omega)]
    refine ⟨rfl, ?_, List.sorted_insertionSort _ _⟩
    exact (List.perm_insertionSort _ _).trans (List.perm_append_singleton _ _)

/-- Witness for `register_download_attempt_spec`: ten in-window timestamps
reject the eleventh attempt with `retry_after = 86390`; an empty window
admits and records the attempt. -/
theorem register_download_attempt_spec_witness :
    (registerAttemptEntries [0, 1, 2, 3, 4, 5, 6, 7, 8, 9] 10 =
      ([0, 1, 2, 3, 4, 5, 6, 7, 8, 9], some 86390)) ∧
    ((registerAttemptEntries [] 5).2 = none ∧
      (registerAttemptEntries [] 5).1.Sorted (· ≤ ·)) := by
  constructor
  · obtain ⟨oldest, hhead, _, heq⟩ :=
      (register_download_attempt_spec [0, 1, 2, 3, 4, 5, 6, 7, 8, 9] 10).1 (by decide)
    have : oldest = 0 := by
      have : (prunedWindow [0, 1, 2, 3, 4, 5, 6, 7, 8, 9] 10).head? = some 0 := by decide
      rw [this] at hhead
      exact (Option.some_inj.mp hhead).symm
    subst this
    rw [heq]
    decide
  · obtain ⟨h1, _, h3⟩ :=
      (register_download_attempt_spec [] 5).2 (by decide)
    exact ⟨h1, h3⟩

lemma strBytes_append (a b : String) : strBytes (a ++ b) = strBytes a ++ strBytes b := by
  simp [strBytes]

lemma hexDigit_mem (n : Nat) : hexDigit n ∈ hexDigitChars := by
  have hb : ∀ k, k < 16 → hexDigitChars.getD k '0' ∈ hexDigitChars := by decide
  exact hb (n % 16) (Nat.mod_lt n (by norm_num))

/-- The claim of C7: the local PoW validator accepts exactly when the
lowercase hex SHA-256 digest of `challenge_id ++ ":" ++ nonce ++ ":" ++
decimal(solution)` starts with three zero hex digits; the digest rendering
only produces lowercase hex digits; and the verdict is a pure function of
the triple (in this embedding, trivially, since it is a function). -/
theorem pow_validation_characterization :
    (∀ challenge_id nonce solution,
      is_pow_solution_valid challenge_id nonce solution =
        powSpecAccepts challenge_id nonce solution) ∧
    (∀ msg c, c ∈ (sha256Hex msg).data → c ∈ hexDigitChars) ∧
    (∀ c₁ n₁ s₁ c₂ n₂ s₂, c₁ = c₂ → n₁ = n₂ → s₁ = s₂ →
      is_pow_solution_valid c₁ n₁ s₁ = is_pow_solution_valid c₂ n₂ s₂) := by
  refine ⟨?_, ?_, ?_⟩
  · intro challenge_id nonce solution
    unfold is_pow_solution_valid powSpecAccepts
    simp only [Sha256Hasher.new, Sha256Hasher.update, Sha256Hasher.finalizeHex,
      strBytes_append, List.nil_append, List.append_assoc]
    rfl
  · intro msg c hc
    simp only [sha256Hex, String.data] at hc
    obtain ⟨chars, hchars, hcmem⟩ := List.mem_flatten.mp hc
    obtain ⟨word, _, hword⟩ := List.mem_map.mp hchars
    rw [← hword] at hcmem
    simp only [wordToHex, List.mem_cons, List.not_mem_nil, or_false] at hcmem
    rcases hcmem with hd | hd | hd | hd | hd | hd | hd | hd <;>
      exact hd ▸ hexDigit_mem _
  · intro c₁ n₁ s₁ c₂ n₂ s₂ hc hn hs
    rw [hc, hn, hs]

/-- Witness for `pow_validation_characterization`: the purity conjunct at
concrete equal inputs. -/
theorem pow_validation_characterization_witness :
    is_pow_solution_valid "a" "b" 3 = is_pow_solution_valid "a" "b" 3 :=
  pow_validation_characterization.2.2 "a" "b" 3 "a" "b" 3 rfl rfl rfl

lemma trimPerClient_sublist (counters : String → Nat) (l : List HistoryEntry) :
    List.Sublist (trimPerClient counters l) l := by
  induction l generalizing counters with
  | nil => simp [trimPerClient]
  | cons e rest ih =>
    unfold trimPerClient
    by_cases h : HISTORY_PER_IP_LIMIT ≤ counters e.requester_ip
    · rw [if_pos h]
      exact (ih counters).trans (List.sublist_cons_self e rest)
    · rw [if_neg h]
      exact (ih _).cons₂ e

lemma trimPerClient_filter_take (l : List HistoryEntry) (counters : String → Nat)
    (c : String) :
    (trimPerClient counters l).filter (fun e => e.requester_ip == c) =
      (l.filter (fun e => e.requester_ip == c)).take
        (HISTORY_PER_IP_LIMIT - counters c) := by
  induction l generalizing counters with
  | nil => simp [trimPerClient]
  | cons e rest ih =>
    unfold trimPerClient
    by_cases hc : e.requester_ip = c
    · subst hc
      have hbeq : (e.requester_ip == e.requester_ip) = true := by simp
      by_cases h : HISTORY_PER_IP_LIMIT ≤ counters e.requester_ip
      · rw [if_pos h, ih counters]
        have hz : HISTORY_PER_IP_LIMIT - counters e.requester_ip = 0 := by omega
        simp [hz, List.filter_cons, hbeq]
      · rw [if_neg h]
        have hpos : HISTORY_PER_IP_LIMIT - counters e.requester_ip =
            (HISTORY_PER_IP_LIMIT - (counters e.requester_ip + 1)) + 1 := by omega
        simp only [List.filter_cons, hbeq, if_true, ih]
        rw [hpos]
        simp [List.take_succ_cons]
    · have hbeq : (e.requester_ip == c) = false := by simp [hc]
      by_cases h : HISTORY_PER_IP_LIMIT ≤ counters e.requester_ip
      · rw [if_pos h, ih counters]
        simp [List.filter_cons, hbeq]
      · rw [if_neg h]
        simp only [List.filter_cons, hbeq, Bool.false_eq_true, if_false]
        rw [ih]
        have hctr : (fun k => if k = e.requester_ip then counters k + 1 else counters k) c
            = counters c := by simp [Ne.symm hc]
        simp only [hctr]

lemma trim_history_limits_sublist (l : List HistoryEntry) :
    List.Sublist (trim_history_limits l) l := by
  unfold trim_history_limits
  by_cases h : HISTORY_MAX_ENTRIES < (trimPerClient (fun _ => 0) l).length
  · rw [if_pos h]
    exact (List.take_sublist _ _).trans (trimPerClient_sublist _ l)
  · rw [if_neg h]
    exact trimPerClient_sublist _ l

/-- The claim of C9: after every record operation the ledger holds at most
`HISTORY_PER_IP_LIMIT` entries per client and at most
`HISTORY_MAX_ENTRIES` entries globally; the per-client pass keeps exactly
the first (newest) ten entries of each client, dropping the oldest; and
newest-first ordering is preserved. -/
theorem history_trim_invariants (entry : HistoryEntry) (history : List HistoryEntry) :
    (∀ c, ((pushHistoryList entry history).filter
        (fun e => e.requester_ip == c)).length ≤ HISTORY_PER_IP_LIMIT) ∧
    (pushHistoryList entry history).length ≤ HISTORY_MAX_ENTRIES ∧
    (∀ c, (trimPerClient (fun _ => 0) (entry :: history)).filter
        (fun e => e.requester_ip == c) =
      ((entry :: history).filter (fun e => e.requester_ip == c)).take
        HISTORY_PER_IP_LIMIT) ∧
    (newestFirst (entry :: history) → newestFirst (pushHistoryList entry history)) := by
  refine ⟨?_, ?_, ?_, ?_⟩
  · intro c
    have hsub : List.Sublist (pushHistoryList entry history)
        (trimPerClient (fun _ => 0) (entry :: history)) := by
      unfold pushHistoryList trim_history_limits
      split
      · exact List.take_sublist _ _
      · exact List.Sublist.refl _
    have h1 := (hsub.filter (fun e => e.requester_ip == c)).length_le
    have h2 := trimPerClient_filter_take (entry :: history) (fun _ => 0) c
    rw [h2] at h1
    calc ((pushHistoryList entry history).filter (fun e => e.requester_ip == c)).length
        ≤ _ := h1
      _ ≤ HISTORY_PER_IP_LIMIT - 0 := List.length_take_le _ _
      _ = HISTORY_PER_IP_LIMIT := by omega
  · unfold pushHistoryList trim_history_limits
    split
    · exact (List.length_take_le _ _).trans (by omega)
    · omega
  · intro c
    have := trimPerClient_filter_take (entry :: history) (fun _ => 0) c
    simpa using this
  · intro h
    exact h.sublist (trim_history_limits_sublist (entry :: history))

/-- Witness for `history_trim_invariants` at a two-entry ledger with a
newest-first hypothesis. -/
theorem history_trim_invariants_witness :
    ((pushHistoryList
        ⟨"b", 5, "1.2.3.4", "u2", none, none, .video, "f", .success, none, none⟩
        [⟨"a", 3, "1.2.3.4", "u1", none, none, .video, "f", .failed, none, some "x"⟩]).filter
          (fun e => e.requester_ip == "1.2.3.4")).length ≤ HISTORY_PER_IP_LIMIT ∧
    newestFirst (pushHistoryList
        ⟨"b", 5, "1.2.3.4", "u2", none, none, .video, "f", .success, none, none⟩
        [⟨"a", 3, "1.2.3.4", "u1", none, none, .video, "f", .failed, none, some "x"⟩]) := by
  refine ⟨(history_trim_invariants _ _).1 "1.2.3.4", ?_⟩
  refine (history_trim_invariants _ _).2.2.2 ?_
  unfold newestFirst
  simp

lemma get_history_source (client_ip : String) (history : List HistoryEntry)
    (s : ServedHistoryEntry) (hs : s ∈ get_history client_ip history) :
    ∃ e, e ∈ history ∧ e.requester_ip = client_ip ∧ toServed e = s := by
  obtain ⟨e, he, hes⟩ := List.mem_map.mp hs
  have hef : e ∈ history.filter (fun en => en.requester_ip == client_ip) :=
    List.mem_of_mem_take he
  obtain ⟨hmem, hip⟩ := List.mem_filter.mp hef
  exact ⟨e, hmem, by simpa using hip, hes⟩

/-- The claim of C10: `GET /history` serves only entries whose hidden
client field equals the requesting client (its output depends only on the
caller's own entries), newest first, and the served representation omits
the client identity field. -/
theorem get_history_privacy :
    (∀ client_ip history, get_history client_ip history =
      get_history client_ip
        (history.filter (fun e => e.requester_ip == client_ip))) ∧
    (∀ client_ip history s, s ∈ get_history client_ip history →
      ∃ e, e ∈ history ∧ e.requester_ip = client_ip ∧ toServed e = s) ∧
    (∀ e ip2, toServed { e with requester_ip := ip2 } = toServed e) ∧
    (∀ client_ip history, newestFirst history →
      (get_history client_ip history).Pairwise
        (fun a b => b.created_at ≤ a.created_at)) := by
  refine ⟨?_, get_history_source, fun e ip2 => rfl, ?_⟩
  · intro client_ip history
    unfold get_history
    rw [List.filter_filter]
    simp
  · intro client_ip history h
    unfold get_history
    rw [List.pairwise_map]
    have hsub : List.Sublist
        ((history.filter (fun e => e.requester_ip == client_ip)).take
          HISTORY_PER_IP_LIMIT) history :=
      (List.take_sublist _ _).trans (List.filter_sublist _)
    exact h.sublist hsub

/-- Witness for `get_history_privacy`: a ledger holding one foreign entry
and one own entry serves exactly the caller's entry, sorted. -/
theorem get_history_privacy_witness :
    (∀ s, s ∈ get_history "1.1.1.1"
        [⟨"b", 5, "1.1.1.1", "u2", none, none, .video, "f", .success, none, none⟩,
         ⟨"a", 3, "8.8.8.8", "u1", none, none, .video, "f", .failed, none, some "x"⟩] →
      ∃ e, e ∈ [⟨"b", 5, "1.1.1.1", "u2", none, none, .video, "f", .success, none, none⟩,
         (⟨"a", 3, "8.8.8.8", "u1", none, none, .video, "f", .failed, none, some "x"⟩ :
          HistoryEntry)] ∧ e.requester_ip = "1.1.1.1" ∧ toServed e = s) ∧
    (get_history "1.1.1.1"
        [⟨"b", 5, "1.1.1.1", "u2", none, none, .video, "f", .success, none, none⟩,
         ⟨"a", 3, "8.8.8.8", "u1", none, none, .video, "f", .failed, none, some "x"⟩]).Pairwise
      (fun a b => b.created_at ≤ a.created_at) := by
  constructor
  · exact fun s => get_history_privacy.2.1 "1.1.1.1" _ s
  · refine get_history_privacy.2.2.2 "1.1.1.1" _ ?_
    unfold newestFirst
    simp

lemma validate_antibot_pruned_none (challenges : ChallengeMap) (client_ip : String)
    (payload : DownloadRequest) (now : Int) (cid : String)
    (h3 : trimmedChallengeId payload = some cid)
    (hpruned : prune_antibot_challenges challenges now cid = none) :
    ∃ e, (validate_antibot challenges client_ip payload now).2 = .error e ∧
      e.status = 403 := by
  unfold validate_antibot
  by_cases hh : honey_nonempty payload
  · simp [hh, ApiError.bot_check_failed]
  · rw [if_neg hh]
    by_cases he : payload.antibot_elapsed_ms.getD 0 < ANTIBOT_MIN_ELAPSED_MS
    · simp [he, ApiError.bot_check_failed]
    · rw [if_neg he, h3]
      cases hsol : payload.antibot_solution with
      | none => simp [ApiError.bot_check_failed]
      | some sol => simp [hpruned, ApiError.bot_check_failed]

/-- The claim of C4: a challenge id is removed from the table as soon as a
validation attempt reaches the lookup, whether the remaining checks then
succeed or fail, so a second attempt with the same id always rejects; an
absent or TTL-expired id is a hard rejection, and a challenge bound to a
different client identity than the caller rejects. -/
theorem antibot_challenge_single_use (challenges : ChallengeMap) (client_ip : String)
    (payload : DownloadRequest) (now : Int) (cid : String)
    (h3 : trimmedChallengeId payload = some cid) :
    ((honey_nonempty payload = false ∧
      ¬ payload.antibot_elapsed_ms.getD 0 < ANTIBOT_MIN_ELAPSED_MS ∧
      payload.antibot_solution.isSome) →
      (validate_antibot challenges client_ip payload now).1 cid = none) ∧
    (challenges cid = none →
      ∃ e, (validate_antibot challenges client_ip payload now).2 = .error e ∧
        e.status = 403) ∧
    (∀ ch, challenges cid = some ch →
      ANTIBOT_CHALLENGE_TTL_SECONDS < now - ch.created_at →
      ∃ e, (validate_antibot challenges client_ip payload now).2 = .error e ∧
        e.status = 403) ∧
    (∀ ch, challenges cid = some ch →
      now - ch.created_at ≤ ANTIBOT_CHALLENGE_TTL_SECONDS →
      ch.ip ≠ client_ip →
      ∃ e, (validate_antibot challenges client_ip payload now).2 = .error e ∧
        e.status = 403) ∧
    ((honey_nonempty payload = false ∧
      ¬ payload.antibot_elapsed_ms.getD 0 < ANTIBOT_MIN_ELAPSED_MS ∧
      payload.antibot_solution.isSome) →
      ∀ payload2 client_ip2 now2,
        trimmedChallengeId payload2 = some cid →
        ∃ e, (validate_antibot (validate_antibot challenges client_ip payload now).1
            client_ip2 payload2 now2).2 = .error e ∧ e.status = 403) := by
  have hconsumed : (honey_nonempty payload = false ∧
      ¬ payload.antibot_elapsed_ms.getD 0 < ANTIBOT_MIN_ELAPSED_MS ∧
      payload.antibot_solution.isSome) →
      (validate_antibot challenges client_ip payload now).1 cid = none := by
    rintro ⟨hh, he, hsol⟩
    obtain ⟨sol, hsol⟩ := Option.isSome_iff_exists.mp hsol
    unfold validate_antibot
    rw [if_neg (by simp [hh]), if_neg he, h3, hsol]
    cases hpr : prune_antibot_challenges challenges now cid with
    | none => simp [hpr, removeChallenge]
    | some ch =>
      by_cases hip : ch.ip ≠ client_ip
      · simp [hpr, hip, removeChallenge]
      · by_cases hpow : is_pow_solution_valid cid ch.nonce sol
        · simp [hpr, hip, hpow, removeChallenge]
        · simp [hpr, hip, hpow, removeChallenge]
  refine ⟨hconsumed, ?_, ?_, ?_, ?_⟩
  · intro habs
    refine validate_antibot_pruned_none challenges client_ip payload now cid h3 ?_
    simp [prune_antibot_challenges, habs]
  · intro ch hch hexp
    refine validate_antibot_pruned_none challenges client_ip payload now cid h3 ?_
    simp only [prune_antibot_challenges, hch, Option.filter_some]
    rw [if_neg (by simp; omega)]
  · intro ch hch hvalid hip
    unfold validate_antibot
    by_cases hh : honey_nonempty payload
    · simp [hh, ApiError.bot_check_failed]
    · rw [if_neg hh]
      by_cases he : payload.antibot_elapsed_ms.getD 0 < ANTIBOT_MIN_ELAPSED_MS
      · simp [he, ApiError.bot_check_failed]
      · rw [if_neg he, h3]
        cases hsol : payload.antibot_solution with
        | none => simp [ApiError.bot_check_failed]
        | some sol =>
          have hpr : prune_antibot_challenges challenges now cid = some ch := by
            simp only [prune_antibot_challenges, hch, Option.filter_some]
            rw [if_pos (by simpa using hvalid)]
          simp [hpr, hip, ApiError.bot_check_failed]
  · intro hre payload2 client_ip2 now2 h3b
    have hgone := hconsumed hre
    refine validate_antibot_pruned_none _ client_ip2 payload2 now2 cid h3b ?_
    simp [prune_antibot_challenges, hgone]

/-- Witness for `antibot_challenge_single_use`: a table holding challenge
"c1" bound to client "8.8.8.8"; a lookup-reaching attempt by "1.2.3.4"
consumes it and is rejected, and a second attempt with the same id is
rejected on the now-empty table; an expired copy of the challenge is also
rejected. -/
theorem antibot_challenge_single_use_witness :
    ((validate_antibot
        (fun k => if k = "c1" then some ⟨"n1", 0, "8.8.8.8"⟩ else none)
        "1.2.3.4"
        ⟨"u", none, none, .video, none, none, none, some "c1", some 7, none,
         some 1000, none⟩ 10).1 "c1" = none) ∧
    (∃ e, (validate_antibot
        (fun k => if k = "c1" then some ⟨"n1", 0, "8.8.8.8"⟩ else none)
        "1.2.3.4"
        ⟨"u", none, none, .video, none, none, none, some "c1", some 7, none,
         some 1000, none⟩ 10).2 = .error e ∧ e.status = 403) ∧
    (∃ e, (validate_antibot
        (validate_antibot
          (fun k => if k = "c1" then some ⟨"n1", 0, "8.8.8.8"⟩ else none)
          "1.2.3.4"
          ⟨"u", none, none, .video, none, none, none, some "c1", some 7, none,
           some 1000, none⟩ 10).1
        "1.2.3.4"
        ⟨"u", none, none, .video, none, none, none, some "c1", some 7, none,
         some 1000, none⟩ 20).2 = .error e ∧ e.status = 403) ∧
    (∃ e, (validate_antibot
        (fun k => if k = "c1" then some ⟨"n1", 0, "1.2.3.4"⟩ else none)
        "1.2.3.4"
        ⟨"u", none, none, .video, none, none, none, some "c1", some 7, none,
         some 1000, none⟩ 500).2 = .error e ∧ e.status = 403) := by
  refine ⟨?_, ?_, ?_, ?_⟩
  · exact (antibot_challenge_single_use _ _ _ _ "c1" (by decide)).1
      ⟨by decide, by decide, by decide⟩
  · exact (antibot_challenge_single_use _ _ _ _ "c1" (by decide)).2.2.2.1
      ⟨"n1", 0, "8.8.8.8"⟩ (by decide) (by decide) (by decide)
  · exact (antibot_challenge_single_use _ _ _ _ "c1" (by decide)).2.2.2.2
      ⟨by decide, by decide, by decide⟩ _ "1.2.3.4" 20 (by decide)
  · exact (antibot_challenge_single_use _ _ _ _ "c1" (by decide)).2.2.1
      ⟨"n1", 0, "1.2.3.4"⟩ (by decide) (by decide)


lemma resolve_download_candidate_ok_some (fs : FS) (cjd cand v : RPath)
    (h : resolve_download_candidate fs cjd cand = .ok (some v)) :
    fs.meta cand = .file ∧ fs.canonical cand = some v ∧
      v.startsWithP cjd = true := by
  unfold resolve_download_candidate at h
  cases hm : fs.meta cand with
  | notFound => simp [hm] at h
  | ioErr => simp [hm] at h
  | notFile => simp [hm] at h
  | file =>
    simp only [hm] at h
    cases hc : fs.canonical cand with
    | none => simp [hc] at h
    | some cc =>
      simp only [hc] at h
      by_cases hs : cc.startsWithP cjd = true
      · rw [if_pos hs] at h
        simp at h
        subst h
        exact ⟨rfl, rfl, hs⟩
      · rw [if_neg hs] at h
        simp at h

lemma scanCandidates_ok_some (fs : FS) (cjd : RPath) (l : List RPath) (v : RPath)
    (h : scanCandidates fs cjd l = .ok (some v)) :
    ∃ cand ∈ l, resolve_download_candidate fs cjd cand = .ok (some v) := by
  induction l with
  | nil => simp [scanCandidates] at h
  | cons p rest ih =>
    unfold scanCandidates at h
    cases hc : resolve_download_candidate fs cjd p with
    | error e => simp [hc] at h
    | ok o =>
      cases o with
      | some u =>
        simp only [hc] at h
        simp at h
        exact ⟨p, List.mem_cons_self p rest, by rw [hc, h]⟩
      | none =>
        simp only [hc] at h
        obtain ⟨cand, hmem, hres⟩ := ih h
        exact ⟨cand, List.mem_cons_of_mem p hmem, hres⟩

lemma scanCandidates_all_none (fs : FS) (cjd : RPath) (l : List RPath)
    (h : ∀ cand ∈ l, resolve_download_candidate fs cjd cand = .ok none) :
    scanCandidates fs cjd l = .ok none := by
  induction l with
  | nil => rfl
  | cons p rest ih =>
    unfold scanCandidates
    rw [h p (List.mem_cons_self p rest)]
    exact ih (fun cand hc => h cand (List.mem_cons_of_mem p hc))

lemma scanWorkspace_ok (fs : FS) (cjd job_dir p : RPath)
    (h : scanWorkspace fs cjd job_dir = .ok p) :
    ∃ cand, fs.meta cand = .file ∧ fs.canonical cand = some p ∧
      p.startsWithP cjd = true := by
  unfold scanWorkspace at h
  cases hld : fs.listDir job_dir with
  | none => simp [hld] at h
  | some entries =>
    simp only [hld] at h
    cases hsc : scanCandidates fs cjd entries with
    | error e => simp [hsc] at h
    | ok o =>
      cases o with
      | none => simp [hsc] at h
      | some v =>
        simp only [hsc] at h
        simp at h
        subst h
        obtain ⟨cand, _, hres⟩ := scanCandidates_ok_some fs cjd entries _ hsc
        exact ⟨cand, resolve_download_candidate_ok_some fs cjd cand _ hres⟩

lemma tryPrintedPath_ok_some (fs : FS) (cjd job_dir : RPath)
    (printed : Option String) (v : RPath)
    (h : tryPrintedPath fs cjd job_dir printed = .ok (some v)) :
    ∃ cand, fs.meta cand = .file ∧ fs.canonical cand = some v ∧
      v.startsWithP cjd = true := by
  cases printed with
  | none => simp [tryPrintedPath] at h
  | some s =>
    unfold tryPrintedPath at h
    cases h1 : resolve_download_candidate fs cjd (parsePath s) with
    | error e => simp [h1] at h
    | ok o1 =>
      cases o1 with
      | some u =>
        simp only [h1] at h
        simp at h
        subst h
        exact ⟨parsePath s, resolve_download_candidate_ok_some fs cjd _ _ h1⟩
      | none =>
        simp only [h1] at h
        exact ⟨job_dir.joinS s, resolve_download_candidate_ok_some fs cjd _ _ h⟩

/-- The amended claim of C6: (soundness) any path the resolver returns
comes from a candidate that is a regular file whose canonicalized form
lies inside the canonical workspace directory; (fallback) when both
printed-path candidates are rejected as unusable (missing, not a regular
file, or escaping the workspace), resolution proceeds exactly as if no
path had been printed, i.e. by scanning the workspace; (failure) when the
scan finds nothing usable either, resolution fails with the internal
"file not found" error. A metadata or canonicalization I/O error instead
aborts resolution (see the counterexample `resolve_printed_io_error_aborts`). -/
theorem resolve_downloaded_file_containment (fs : FS) (job_dir : RPath) :
    (∀ printed p, resolve_downloaded_file fs job_dir printed = .ok p →
      ∃ cjd cand, fs.canonical job_dir = some cjd ∧
        fs.meta cand = .file ∧ fs.canonical cand = some p ∧
        p.startsWithP cjd = true) ∧
    (∀ s cjd, fs.canonical job_dir = some cjd →
      resolve_download_candidate fs cjd (parsePath s) = .ok none →
      resolve_download_candidate fs cjd (job_dir.joinS s) = .ok none →
      resolve_downloaded_file fs job_dir (some s) =
        resolve_downloaded_file fs job_dir none) ∧
    (∀ cjd entries, fs.canonical job_dir = some cjd →
      fs.listDir job_dir = some entries →
      (∀ cand ∈ entries, resolve_download_candidate fs cjd cand = .ok none) →
      resolve_downloaded_file fs job_dir none = .error noDownloadedFileError) := by
  refine ⟨?_, ?_, ?_⟩
  · intro printed p h
    unfold resolve_downloaded_file at h
    cases hcjd : fs.canonical job_dir with
    | none => simp [hcjd] at h
    | some cjd =>
      simp only [hcjd] at h
      cases htp : tryPrintedPath fs cjd job_dir printed with
      | error e => simp [htp] at h
      | ok o =>
        cases o with
        | some v =>
          simp only [htp] at h
          simp at h
          subst h
          obtain ⟨cand, hc⟩ := tryPrintedPath_ok_some fs cjd job_dir printed _ htp
          exact ⟨cjd, cand, rfl, hc⟩
        | none =>
          simp only [htp] at h
          obtain ⟨cand, hc⟩ := scanWorkspace_ok fs cjd job_dir p h
          exact ⟨cjd, cand, rfl, hc⟩
  · intro s cjd hcjd h1 h2
    unfold resolve_downloaded_file
    have htp : tryPrintedPath fs cjd job_dir (some s) = .ok none := by
      simp only [tryPrintedPath, h1, h2]
    simp only [hcjd, htp]
    rfl
  · intro cjd entries hcjd hld hall
    unfold resolve_downloaded_file
    have htp : tryPrintedPath fs cjd job_dir none = .ok none := rfl
    simp only [hcjd, htp]
    unfold scanWorkspace
    simp only [hld, scanCandidates_all_none fs cjd entries hall]

/-- Witness for `resolve_downloaded_file_containment` on a concrete
filesystem: the workspace `/w/j` contains the regular file `/w/j/a`; with
no printed path the scan resolves it (soundness), a missing printed path
`/other/x` falls back to the scan, and on an empty workspace resolution
fails with the internal error. -/
theorem resolve_downloaded_file_containment_witness :
    (∃ cjd cand,
      (FS.mk
          (fun p => if p = ⟨true, ["w", "j", "a"]⟩ then .file else .notFound)
          (fun p => some p)
          (fun p => if p = ⟨true, ["w", "j"]⟩ then
            some [⟨true, ["w", "j", "a"]⟩] else none)).canonical
        ⟨true, ["w", "j"]⟩ = some cjd ∧
      (FS.mk
          (fun p => if p = ⟨true, ["w", "j", "a"]⟩ then .file else .notFound)
          (fun p => some p)
          (fun p => if p = ⟨true, ["w", "j"]⟩ then
            some [⟨true, ["w", "j", "a"]⟩] else none)).meta cand = .file ∧
      (FS.mk
          (fun p => if p = ⟨true, ["w", "j", "a"]⟩ then .file else .notFound)
          (fun p => some p)
          (fun p => if p = ⟨true, ["w", "j"]⟩ then
            some [⟨true, ["w", "j", "a"]⟩] else none)).canonical cand =
        some ⟨true, ["w", "j", "a"]⟩ ∧
      RPath.startsWithP ⟨true, ["w", "j", "a"]⟩ cjd = true) ∧
    (resolve_downloaded_file
        (FS.mk
          (fun p => if p = ⟨true, ["w", "j", "a"]⟩ then .file else .notFound)
          (fun p => some p)
          (fun p => if p = ⟨true, ["w", "j"]⟩ then
            some [⟨true, ["w", "j", "a"]⟩] else none))
        ⟨true, ["w", "j"]⟩ (some "/other/x") =
      resolve_downloaded_file
        (FS.mk
          (fun p => if p = ⟨true, ["w", "j", "a"]⟩ then .file else .notFound)
          (fun p => some p)
          (fun p => if p = ⟨true, ["w", "j"]⟩ then
            some [⟨true, ["w", "j", "a"]⟩] else none))
        ⟨true, ["w", "j"]⟩ none) ∧
    (resolve_downloaded_file
        (FS.mk (fun _ => .notFound) (fun p => some p)
          (fun p => if p = ⟨true, ["w", "j"]⟩ then some [] else none))
        ⟨true, ["w", "j"]⟩ none = .error noDownloadedFileError) := by
  refine ⟨?_, ?_, ?_⟩
  · exact (resolve_downloaded_file_containment _ ⟨true, ["w", "j"]⟩).1 none
      ⟨true, ["w", "j", "a"]⟩ (by decide)
  · exact (resolve_downloaded_file_containment _ ⟨true, ["w", "j"]⟩).2.1
      "/other/x" ⟨true, ["w", "j"]⟩ (by decide) (by decide) (by decide)
  · exact (resolve_downloaded_file_containment _ ⟨true, ["w", "j"]⟩).2.2
      ⟨true, ["w", "j"]⟩ [] (by decide) (by decide) (by decide)

/-- Counterexample to C6 as stated: the claim says an unreadable printed
path makes the resolver fall back to scanning the workspace for the first
valid regular file. On this filesystem the printed path `/w/j/x` fails
`metadata` with a non-NotFound I/O error while the workspace holds the
perfectly valid regular file `/w/j/a` (second conjunct); the code aborts
the whole resolution with an internal error instead of serving that file. -/
theorem resolve_printed_io_error_aborts :
    (resolve_downloaded_file
        (FS.mk
          (fun p => if p = ⟨true, ["w", "j", "a"]⟩ then .file
            else if p = ⟨true, ["w", "j", "x"]⟩ then .ioErr else .notFound)
          (fun p => some p)
          (fun p => if p = ⟨true, ["w", "j"]⟩ then
            some [⟨true, ["w", "j", "a"]⟩] else none))
        ⟨true, ["w", "j"]⟩ (some "/w/j/x") =
      .error (ApiError.internal "No se pudo leer archivo temporal descargado.")) ∧
    (resolve_download_candidate
        (FS.mk
          (fun p => if p = ⟨true, ["w", "j", "a"]⟩ then .file
            else if p = ⟨true, ["w", "j", "x"]⟩ then .ioErr else .notFound)
          (fun p => some p)
          (fun p => if p = ⟨true, ["w", "j"]⟩ then
            some [⟨true, ["w", "j", "a"]⟩] else none))
        ⟨true, ["w", "j"]⟩ ⟨true, ["w", "j", "a"]⟩ =
      .ok (some ⟨true, ["w", "j", "a"]⟩)) := by
  constructor <;> decide

/-- The amended claim of C5: among requests that pass URL validation, a
non-empty honeypot field is rejected with 403 under either anti-bot
strategy, before every other protection or admission check: the shared
state (challenge table, rate-limit table, history) is returned untouched
and no history entry is recorded. URL validation itself runs earlier (see
the counterexample `honeypot_request_not_always_403`). -/
theorem honeypot_rejected_403_after_url_checks
    (urlOk : String → Bool) (st : SState) (payload : DownloadRequest)
    (client_ip : String) (now : Int) (eff : Effects)
    (hurl : ¬ strTrim payload.url = "")
    (hok : urlOk (strTrim payload.url) = true)
    (hhoney : honey_nonempty payload = true) :
    start_download urlOk st payload client_ip now eff =
      (st, 0, .error (ApiError.bot_check_failed
        "Solicitud bloqueada por filtro anti-bot.")) := by
  unfold start_download
  simp only [if_neg hurl, hok, Bool.not_true, Bool.false_eq_true, if_false,
    verify_request_protection, hhoney, if_true]

/-- Counterexample to C5 as stated: a request whose honeypot field is
non-empty but whose URL is blank is rejected with 400 (the URL check runs
before the honeypot check), not 403, and the claim says every request with
a non-empty honeypot yields 403. -/
theorem honeypot_request_not_always_403 :
    honey_nonempty
      ⟨"", none, none, .video, none, none, none, none, none, some "bot",
       none, none⟩ = true ∧
    (start_download (fun _ => true)
        ⟨[], fun _ => none, fun _ => [], none⟩
        ⟨"", none, none, .video, none, none, none, none, none, some "bot",
         none, none⟩
        "1.2.3.4" 0
        ⟨.verified true, true, true, .error (ApiError.bad_request "x"), true, "id"⟩).2.2 =
      .error (ApiError.bad_request "Ingresa una URL valida antes de descargar.") := by
  constructor <;> decide

/-- Witness for `honeypot_rejected_403_after_url_checks`: a concrete
request with a valid URL and a filled honeypot field is rejected with the
403 bot-check error under the local-PoW strategy, with the state
untouched. -/
theorem honeypot_rejected_403_witness :
    start_download (fun _ => true)
        ⟨[], fun _ => none, fun _ => [], none⟩
        ⟨"https://youtube.com/watch", none, none, .video, none, none, none,
         some "c1", some 7, some "bot", some 1000, none⟩
        "1.2.3.4" 0
        ⟨.verified true, true, true, .error (ApiError.bad_request "x"), true, "id"⟩ =
      (⟨[], fun _ => none, fun _ => [], none⟩, 0,
       .error (ApiError.bot_check_failed
         "Solicitud bloqueada por filtro anti-bot.")) :=
  honeypot_rejected_403_after_url_checks (fun _ => true) _ _ "1.2.3.4" 0 _
    (by decide) (by decide) (by decide)

/-- The claim of C8: under the local proof-of-work strategy (no Turnstile
secret configured), a request whose `antibot_elapsed_ms` is below the
900 ms human-interaction threshold is rejected with 403, for every
challenge id and solution — including a solution whose hash would be
valid. -/
theorem elapsed_below_threshold_rejected_403
    (urlOk : String → Bool) (st : SState) (payload : DownloadRequest)
    (client_ip : String) (now : Int) (eff : Effects)
    (hurl : ¬ strTrim payload.url = "")
    (hok : urlOk (strTrim payload.url) = true)
    (hsec : st.turnstileSecret = none)
    (helapsed : payload.antibot_elapsed_ms.getD 0 < ANTIBOT_MIN_ELAPSED_MS) :
    ∃ e, (start_download urlOk st payload client_ip now eff).2.2 = .error e ∧
      e.status = 403 := by
  unfold start_download
  simp only [if_neg hurl, hok, Bool.not_true, Bool.false_eq_true, if_false]
  unfold verify_request_protection
  by_cases hh : honey_nonempty payload
  · simp [hh, ApiError.bot_check_failed]
  · simp only [hh, Bool.false_eq_true, if_false, hsec]
    unfold validate_antibot
    simp only [hh, Bool.false_eq_true, if_false, if_pos helapsed]
    simp [ApiError.bot_check_failed]

/-- Witness for `elapsed_below_threshold_rejected_403`: `elapsed_ms = 500`
with a challenge and solution supplied is rejected with 403. -/
theorem elapsed_below_threshold_rejected_403_witness :
    ∃ e, (start_download (fun _ => true)
        ⟨[], fun k => if k = "c1" then some ⟨"n1", 0, "1.2.3.4"⟩ else none,
         fun _ => [], none⟩
        ⟨"https://youtube.com/watch", none, none, .video, none, none, none,
         some "c1", some 7, none, some 500, none⟩
        "1.2.3.4" 0
        ⟨.verified true, true, true, .error (ApiError.bad_request "x"), true,
         "id"⟩).2.2 = .error e ∧ e.status = 403 :=
  elapsed_below_threshold_rejected_403 (fun _ => true) _ _ "1.2.3.4" 0 _
    (by decide) (by decide) (by decide) (by decide)

/-- The amended claim of C1: a `/download` request records exactly one
HistoryEntry exactly when it reaches the extraction stage (i.e. it passes
URL validation, anti-bot protection, rate-limit admission including its
persistence, and workspace creation) — whatever the extraction outcome —
and a failure to persist the history snapshot is itself returned as an
error to the caller. Requests rejected before the extraction stage record
no entry (see the counterexample `history_not_recorded_on_rejection`). -/
theorem history_recorded_once_when_extraction_reached
    (urlOk : String → Bool) (st : SState) (payload : DownloadRequest)
    (client_ip : String) (now : Int) (eff : Effects) :
    ((start_download urlOk st payload client_ip now eff).2.1 =
      if reachesExtraction urlOk st payload client_ip now eff = true then 1 else 0) ∧
    (reachesExtraction urlOk st payload client_ip now eff = true →
      eff.persistHistoryOk = false →
      (start_download urlOk st payload client_ip now eff).2.2 =
        .error persistHistoryError) := by
  unfold start_download reachesExtraction
  by_cases h1 : strTrim payload.url = ""
  · simp [h1]
  · have hbe : (strTrim payload.url == "") = false := by
      simp [h1]
    by_cases h2 : urlOk (strTrim payload.url) = true
    · simp only [if_neg h1, h2, hbe, Bool.not_false, Bool.true_and, if_true]
      cases hp : verify_request_protection st.turnstileSecret st.challenges
          client_ip payload now eff.wire with
      | mk ch protRes =>
        simp only [hp]
        cases protRes with
        | error e => simp [Except.isOk, Except.toBool]
        | ok u =>
          cases u
          simp only [Except.isOk, Except.toBool, Bool.true_and]
          unfold register_download_attempt
          by_cases hpr : eff.persistRateOk
          · simp only [hpr, Bool.not_true, Bool.false_eq_true, if_false,
              Bool.true_and]
            cases hadm : (stepAttempt st.rateLimits client_ip now).2 with
            | some retry => simp [hadm]
            | none =>
              simp only [hadm, Option.isNone_none, Bool.true_and]
              by_cases hmk : eff.mkdirOk
              · simp only [hmk, Bool.not_true, Bool.false_eq_true, if_false,
                  if_true]
                cases hprep : eff.prep with
                | ok prepared =>
                  unfold push_history
                  by_cases hph : eff.persistHistoryOk
                  · simp [hph, Except.isOk, Except.toBool]
                  · simp [hph, Except.isOk, Except.toBool]
                | error e =>
                  unfold push_history
                  by_cases hph : eff.persistHistoryOk
                  · simp [hph, Except.isOk, Except.toBool]
                  · simp [hph, Except.isOk, Except.toBool]
              · simp [hmk]
          · simp [hpr]
    · simp [if_neg h1, h2, hbe]

/-- Counterexample to C1 as stated: a request rejected by the anti-bot
filter (non-empty honeypot, otherwise valid) returns a 403 error and
records zero HistoryEntry values, while the claim demands exactly one
entry for every request including anti-bot rejections. -/
theorem history_not_recorded_on_rejection :
    (∃ e, (start_download (fun _ => true)
        ⟨[], fun _ => none, fun _ => [], none⟩
        ⟨"https://youtube.com/watch", none, none, .video, none, none, none,
         some "c1", some 7, some "bot", some 1000, none⟩
        "1.2.3.4" 0
        ⟨.verified true, true, true, .error (ApiError.bad_request "x"), true,
         "id"⟩).2.2 = .error e ∧ e.status = 403) ∧
    (start_download (fun _ => true)
        ⟨[], fun _ => none, fun _ => [], none⟩
        ⟨"https://youtube.com/watch", none, none, .video, none, none, none,
         some "c1", some 7, some "bot", some 1000, none⟩
        "1.2.3.4" 0
        ⟨.verified true, true, true, .error (ApiError.bad_request "x"), true,
         "id"⟩).2.1 = 0 ∧
    (start_download (fun _ => true)
        ⟨[], fun _ => none, fun _ => [], none⟩
        ⟨"https://youtube.com/watch", none, none, .video, none, none, none,
         some "c1", some 7, some "bot", some 1000, none⟩
        "1.2.3.4" 0
        ⟨.verified true, true, true, .error (ApiError.bad_request "x"), true,
         "id"⟩).1.history = [] := by
  refine ⟨⟨ApiError.bot_check_failed "Solicitud bloqueada por filtro anti-bot.",
    ?_, rfl⟩, ?_, ?_⟩ <;> decide

/-- Witness for `history_recorded_once_when_extraction_reached`: a request
that reaches the extraction stage under the delegated (Turnstile) strategy
whose extraction fails and whose history persistence also fails records
exactly one entry and surfaces the persistence failure. -/
theorem history_recorded_once_witness :
    reachesExtraction (fun _ => true)
        ⟨[], fun _ => none, fun _ => [], some "secret"⟩
        ⟨"https://youtube.com/watch", none, none, .video, none, none, none,
         none, none, none, none, some "tok"⟩
        "1.2.3.4" 0
        ⟨.verified true, true, true, .error (ApiError.bad_request "boom"),
         false, "id"⟩ = true ∧
    (start_download (fun _ => true)
        ⟨[], fun _ => none, fun _ => [], some "secret"⟩
        ⟨"https://youtube.com/watch", none, none, .video, none, none, none,
         none, none, none, none, some "tok"⟩
        "1.2.3.4" 0
        ⟨.verified true, true, true, .error (ApiError.bad_request "boom"),
         false, "id"⟩).2.1 = 1 ∧
    (start_download (fun _ => true)
        ⟨[], fun _ => none, fun _ => [], some "secret"⟩
        ⟨"https://youtube.com/watch", none, none, .video, none, none, none,
         none, none, none, none, some "tok"⟩
        "1.2.3.4" 0
        ⟨.verified true, true, true, .error (ApiError.bad_request "boom"),
         false, "id"⟩).2.2 = .error persistHistoryError := by
  have hre : reachesExtraction (fun _ => true)
      ⟨[], fun _ => none, fun _ => [], some "secret"⟩
      ⟨"https://youtube.com/watch", none, none, .video, none, none, none,
       none, none, none, none, some "tok"⟩
      "1.2.3.4" 0
      ⟨.verified true, true, true, .error (ApiError.bad_request "boom"),
       false, "id"⟩ = true := by decide
  refine ⟨hre, ?_, ?_⟩
  · rw [(history_recorded_once_when_extraction_reached (fun _ => true) _ _
      "1.2.3.4" 0 _).1, hre]
    rfl
  · exact (history_recorded_once_when_extraction_reached (fun _ => true) _ _
      "1.2.3.4" 0 _).2 hre rfl

lemma subperm_filter_int (p : Int → Bool) {l₁ l₂ : List Int}
    (h : List.Subperm l₁ l₂) : List.Subperm (l₁.filter p) (l₂.filter p) := by
  obtain ⟨l', hperm, hsub⟩ := h
  exact ⟨l'.filter p, hperm.filter p, hsub.filter p⟩

lemma registerAttemptEntries_reject_parts {entries : List Int} {now : Int}
    (h : DOWNLOAD_LIMIT_PER_DAY ≤ (prunedWindow entries now).length) :
    (registerAttemptEntries entries now).1 = prunedWindow entries now ∧
    (registerAttemptEntries entries now).2.isNone = false := by
  unfold registerAttemptEntries
  rw [if_pos h]
  exact ⟨rfl, rfl⟩

lemma registerAttemptEntries_accept_parts {entries : List Int} {now : Int}
    (h : ¬ DOWNLOAD_LIMIT_PER_DAY ≤ (prunedWindow entries now).length) :
    (registerAttemptEntries entries now).1 =
      ((prunedWindow entries now) ++ [now]).insertionSort (· ≤ ·) ∧
    (registerAttemptEntries entries now).2.isNone = true := by
  unfold registerAttemptEntries
  rw [if_neg h]
  exact ⟨rfl, rfl⟩

/-- Invariant induction for the rate limiter: processing a nondecreasing
event trace preserves (i) a 10-entry cap on every stored list, (ii) that
the already-admitted timestamps inside the current trailing window are,
with multiplicity, among the stored timestamps, and (iii) the 10-cap on
admissions inside every trailing window. -/
lemma runAttempts_window_inv (events : List (String × Int)) :
    ∀ (m : RateLimitMap) (A : List (String × Int)) (T : Int),
    List.Chain (fun a b : Int => a ≤ b) T (events.map Prod.snd) →
    (∀ ip, (m ip).length ≤ DOWNLOAD_LIMIT_PER_DAY) →
    (∀ ip, List.Subperm ((admTimes A ip).filter
      (fun s => decide (T - downloadWindowSecs < s))) (m ip)) →
    (∀ ip w, ((admTimes A ip).filter (inWindow w)).length ≤ DOWNLOAD_LIMIT_PER_DAY) →
    ∀ ip w, ((admTimes (A ++ (runAttempts m events).2) ip).filter
      (inWindow w)).length ≤ DOWNLOAD_LIMIT_PER_DAY := by
  induction events with
  | nil =>
    intro m A T _ _ _ I3 ip w
    simpa [runAttempts] using I3 ip w
  | cons e rest ih =>
    obtain ⟨ip₀, t⟩ := e
    intro m A T hchain I1 I2 I3 ip w
    have hTt : T ≤ t := (List.chain_cons.mp (by simpa using hchain)).1
    have hchain' : List.Chain (fun a b : Int => a ≤ b) t (rest.map Prod.snd) :=
      (List.chain_cons.mp (by simpa using hchain)).2
    have hWpos : (0 : Int) < downloadWindowSecs := by
      norm_num [downloadWindowSecs, DOWNLOAD_WINDOW_HOURS]
    have hmonof : ∀ l : List Int,
        List.Sublist (l.filter (fun s => decide (t - downloadWindowSecs < s)))
          (l.filter (fun s => decide (T - downloadWindowSecs < s))) := by
      intro l
      refine List.monotone_filter_right l ?_
      intro a ha
      simp only [decide_eq_true_eq] at ha ⊢
      omega
    have hX : ∀ ip', List.Subperm ((admTimes A ip').filter
        (fun s => decide (t - downloadWindowSecs < s))) (m ip') :=
      fun ip' => ((hmonof _).subperm).trans (I2 ip')
    have hXkept : List.Subperm ((admTimes A ip₀).filter
        (fun s => decide (t - downloadWindowSecs < s)))
        (prunedWindow (m ip₀) t) := by
      have h1 := subperm_filter_int
        (fun s => decide (t - downloadWindowSecs < s)) (hX ip₀)
      have h2 : ((admTimes A ip₀).filter
          (fun s => decide (t - downloadWindowSecs < s))).filter
            (fun s => decide (t - downloadWindowSecs < s)) =
          (admTimes A ip₀).filter (fun s => decide (t - downloadWindowSecs < s)) :=
        List.filter_eq_self.mpr (fun a ha => (List.mem_filter.mp ha).2)
      rw [h2] at h1
      exact h1.trans
        (((List.perm_insertionSort (· ≤ ·) (m ip₀)).symm.filter _).subperm)
    by_cases hrej : DOWNLOAD_LIMIT_PER_DAY ≤ (prunedWindow (m ip₀) t).length
    · obtain ⟨hr1, hr2⟩ := registerAttemptEntries_reject_parts hrej
      have hrun : (runAttempts m ((ip₀, t) :: rest)).2 =
          (runAttempts (stepAttempt m ip₀ t).1 rest).2 := by
        simp [runAttempts, stepAttempt, hr2]
      rw [hrun]
      refine ih (stepAttempt m ip₀ t).1 A t hchain' ?_ ?_ I3 ip w
      · intro ip'
        by_cases hip : ip' = ip₀
        · rw [hip]
          have heq : (stepAttempt m ip₀ t).1 ip₀ = prunedWindow (m ip₀) t := by
            simp [stepAttempt, hr1]
          rw [heq]
          exact (prunedWindow_length_le _ _).trans (I1 ip₀)
        · have heq : (stepAttempt m ip₀ t).1 ip' = m ip' := by
            simp [stepAttempt, hip]
          rw [heq]
          exact I1 ip'
      · intro ip'
        by_cases hip : ip' = ip₀
        · rw [hip]
          have heq : (stepAttempt m ip₀ t).1 ip₀ = prunedWindow (m ip₀) t := by
            simp [stepAttempt, hr1]
          rw [heq]
          exact hXkept
        · have heq : (stepAttempt m ip₀ t).1 ip' = m ip' := by
            simp [stepAttempt, hip]
          rw [heq]
          exact hX ip'
    · obtain ⟨hr1, hr2⟩ := registerAttemptEntries_accept_parts hrej
      have hkeptlt : (prunedWindow (m ip₀) t).length < DOWNLOAD_LIMIT_PER_DAY := by
        omega
      have hrun : (runAttempts m ((ip₀, t) :: rest)).2 =
          (ip₀, t) :: (runAttempts (stepAttempt m ip₀ t).1 rest).2 := by
        simp [runAttempts, stepAttempt, hr2]
      rw [hrun]
      have hsplit : A ++ ((ip₀, t) :: (runAttempts (stepAttempt m ip₀ t).1 rest).2) =
          (A ++ [(ip₀, t)]) ++ (runAttempts (stepAttempt m ip₀ t).1 rest).2 := by
        simp
      rw [hsplit]
      refine ih (stepAttempt m ip₀ t).1 (A ++ [(ip₀, t)]) t hchain' ?_ ?_ ?_ ip w
      · intro ip'
        by_cases hip : ip' = ip₀
        · rw [hip]
          have heq : (stepAttempt m ip₀ t).1 ip₀ =
              ((prunedWindow (m ip₀) t) ++ [t]).insertionSort (· ≤ ·) := by
            simp [stepAttempt, hr1]
          rw [heq]
          have hlen : (((prunedWindow (m ip₀) t) ++ [t]).insertionSort (· ≤ ·)).length =
              (prunedWindow (m ip₀) t).length + 1 := by
            rw [(List.perm_insertionSort _ _).length_eq]
            simp
          omega
        · have heq : (stepAttempt m ip₀ t).1 ip' = m ip' := by
            simp [stepAttempt, hip]
          rw [heq]
          exact I1 ip'
      · intro ip'
        by_cases hip : ip' = ip₀
        · rw [hip]
          have heq : (stepAttempt m ip₀ t).1 ip₀ =
              ((prunedWindow (m ip₀) t) ++ [t]).insertionSort (· ≤ ·) := by
            simp [stepAttempt, hr1]
          rw [heq]
          have hadm : admTimes (A ++ [(ip₀, t)]) ip₀ = admTimes A ip₀ ++ [t] := by
            simp [admTimes]
          rw [hadm, List.filter_append]
          have hft : [t].filter (fun s => decide (t - downloadWindowSecs < s)) = [t] := by
            simp
            omega
          rw [hft]
          obtain ⟨X', hperm, hsub⟩ := hXkept
          refine List.Subperm.trans
            ⟨X' ++ [t], hperm.append_right [t], hsub.append (List.Sublist.refl [t])⟩ ?_
          exact ((List.perm_insertionSort (· ≤ ·) _).symm).subperm
        · have hne : ¬ (ip₀ = ip') := fun h => hip h.symm
          have heq : (stepAttempt m ip₀ t).1 ip' = m ip' := by
            simp [stepAttempt, hip]
          rw [heq]
          have hadm : admTimes (A ++ [(ip₀, t)]) ip' = admTimes A ip' := by
            simp [admTimes, hne]
          rw [hadm]
          exact hX ip'
      · intro ip' w'
        by_cases hip : ip' = ip₀
        · rw [hip]
          have hadm : admTimes (A ++ [(ip₀, t)]) ip₀ = admTimes A ip₀ ++ [t] := by
            simp [admTimes]
          rw [hadm, List.filter_append]
          by_cases hin : inWindow w' t = true
          · have hft : [t].filter (inWindow w') = [t] := by simp [hin]
            rw [hft]
            have hsubw : List.Sublist ((admTimes A ip₀).filter (inWindow w'))
                ((admTimes A ip₀).filter
                  (fun s => decide (t - downloadWindowSecs < s))) := by
              refine List.monotone_filter_right _ ?_
              intro a ha
              simp only [inWindow, Bool.and_eq_true, decide_eq_true_eq] at ha hin ⊢
              omega
            have hlen := (hsubw.subperm.trans hXkept).length_le
            simp only [List.length_append, List.length_singleton]
            omega
          · have hinf : inWindow w' t = false := by
              revert hin
              cases inWindow w' t <;> simp
            have hft : [t].filter (inWindow w') = [] := by simp [hinf]
            rw [hft, List.append_nil]
            exact I3 ip₀ w'
        · have hne : ¬ (ip₀ = ip') := fun h => hip h.symm
          have hadm : admTimes (A ++ [(ip₀, t)]) ip' = admTimes A ip' := by
            simp [admTimes, hne]
          rw [hadm]
          exact I3 ip' w'

/-- The amended claim of C2: starting from an empty table and processing a
serialized trace of admission attempts whose sampled timestamps are
nondecreasing in lock order, the number of timestamps the rate limiter
admits for one client inside any trailing 24-hour window never exceeds
`DOWNLOAD_LIMIT_PER_DAY`. The shared lock serializes admissions, but
`Utc::now` is sampled before the lock is acquired (main.rs line 877 vs
line 881), so concurrent requests can enter the critical section with
timestamps out of order; in that case the bound can fail (see the
counterexample `clock_inversion_exceeds_window_bound`). -/
theorem rate_limiter_window_bound (events : List (String × Int))
    (hmono : List.Chain' (fun a b : Int => a ≤ b) (events.map Prod.snd))
    (ip : String) (w : Int) :
    ((admTimes (runAttempts emptyRateMap events).2 ip).filter
      (inWindow w)).length ≤ DOWNLOAD_LIMIT_PER_DAY := by
  cases events with
  | nil => simp [runAttempts, admTimes]
  | cons e rest =>
    obtain ⟨ip₀, t⟩ := e
    have hchain : List.Chain (fun a b : Int => a ≤ b) t
        (((ip₀, t) :: rest).map Prod.snd) := by
      refine List.Chain.cons (le_refl t) ?_
      simpa using hmono
    have hres := runAttempts_window_inv ((ip₀, t) :: rest) emptyRateMap [] t hchain
      (fun ip' => by simp [emptyRateMap, DOWNLOAD_LIMIT_PER_DAY])
      (fun ip' => by simp [admTimes, emptyRateMap, List.nil_subperm])
      (fun ip' w' => by simp [admTimes, DOWNLOAD_LIMIT_PER_DAY])
      ip w
    simpa using hres

/-- Witness for `rate_limiter_window_bound` on a concrete two-event trace. -/
theorem rate_limiter_window_bound_witness :
    ((admTimes (runAttempts emptyRateMap
        [("1.2.3.4", 5), ("1.2.3.4", 10)]).2 "1.2.3.4").filter
      (inWindow 10)).length ≤ DOWNLOAD_LIMIT_PER_DAY := by
  refine rate_limiter_window_bound [("1.2.3.4", 5), ("1.2.3.4", 10)] ?_ "1.2.3.4" 10
  exact List.Chain.cons (by norm_num) List.Chain.nil

/-- Counterexample to C2 as stated: the claim asserts the 10-per-window
bound holds even under concurrent requests because admission is serialized
by the shared lock. But the lock serializes only the critical section, not
the `Utc::now` sample taken before it, so lock order can invert sample
order. In the serialized order below — ten admissions at t=1, then a
request sampled at t=86402 (whose pruning discards all ten old entries),
then a concurrently-issued request sampled earlier at t=86400 that reached
the lock last — every attempt is admitted, and eleven admitted timestamps
lie in the trailing 24-hour window ending at t=86400. -/
theorem clock_inversion_exceeds_window_bound :
    ((admTimes (runAttempts emptyRateMap
        [("c", 1), ("c", 1), ("c", 1), ("c", 1), ("c", 1), ("c", 1), ("c", 1),
         ("c", 1), ("c", 1), ("c", 1), ("c", 86402), ("c", 86400)]).2 "c").filter
      (inWindow 86400)).length = 11 ∧
    DOWNLOAD_LIMIT_PER_DAY < 11 := by
  constructor <;> decide
